import Mathlib

/-!
Verification development for the hydrogen storefront template repository.

The definitions below are shallow embeddings of the TypeScript functions in
  src/packages/hydrogen/src/routing/redirect.ts  (storefrontRedirect,
  setupLocalStarterTemplate) and
  src/app/lib/utils.ts  (resolveToFromType, formatText, isNewArrival,
  statusMessage).
External library calls (the typographic-base processor, the cli-kit hyphenate
helper, the Date parser, the remote Storefront API) are passed in as explicit
function or value parameters; everything the repository itself computes is
translated directly from the source.
-/

set_option maxHeartbeats 1000000

namespace Hydrogen

/-! ### HTTP response model for storefrontRedirect -/

/-- Minimal model of a fetch-API Response: status code, optional location
header and optional body text. -/
structure Resp where
  status : Nat
  location : Option String
  body : Option String
deriving DecidableEq

/-- Model of the remix `redirect(url)` helper: a 302 response with a
location header. -/
def remixRedirect (url : String) : Resp :=
  { status := 302, location := some url, body := none }

/-- Model of `new Response('Not Found', \x7bstatus: 404\x7d)`, the default for
the `response` option of storefrontRedirect. -/
def notFoundResponse : Resp :=
  { status := 404, location := none, body := some "Not Found" }

/-- JavaScript truthiness of a possibly-undefined string: defined and
non-empty. -/
def truthyStr : Option String → Bool
  | some s => s ≠ ""
  | none => false

/-! ### Storefront API result model (UrlRedirectConnection) -/

structure UrlRedirectNode where
  target : Option String
deriving DecidableEq

structure UrlRedirectEdge where
  node : Option UrlRedirectNode
deriving DecidableEq

structure UrlRedirectConnection where
  edges : Option (List UrlRedirectEdge)
deriving DecidableEq

/-- Model of the optional-chaining expression
`urlRedirects?.edges?.[0]?.node?.target` from storefrontRedirect. -/
def firstRedirectTarget (conn : Option UrlRedirectConnection) : Option String :=
  (((conn.bind (fun c => c.edges)).bind List.head?).bind (fun e => e.node)).bind
    (fun n => n.target)

/-- Inputs of storefrontRedirect.  The request is represented by the parsed
pathname and search of its URL, the storefront client by the outcome of its
redirects query (keyed by the query variable the code builds), and the
external getRedirectUrl helper by its result on the request URL. -/
structure StorefrontRedirectOptions where
  shopifyDomain : String
  pathname : String
  search : String
  noAdminRedirect : Bool
  response : Option Resp
  queryRedirects : String → Except String (Option UrlRedirectConnection)
  getRedirectUrl : Option String

/-- Shallow embedding of storefrontRedirect from
src/packages/hydrogen/src/routing/redirect.ts.  The second component of the
result collects the console.error log lines the call emits.  A thrown
Storefront API query is the `Except.error` case; the try/catch of the source
turns it into a log line followed by the fallback response, so the embedded
function is total and never propagates the error. -/
def storefrontRedirect (o : StorefrontRedirectOptions) : Resp × List String :=
  let response := o.response.getD notFoundResponse
  let redirectFrom := o.pathname ++ o.search
  if o.pathname = "/admin" && !o.noAdminRedirect then
    (remixRedirect (o.shopifyDomain ++ "/admin"), [])
  else
    match o.queryRedirects ("path:" ++ redirectFrom) with
    | Except.error _ =>
        (response,
         ["Failed to fetch redirects from Storefront API for route " ++ redirectFrom])
    | Except.ok conn =>
        let location := firstRedirectTarget conn
        if truthyStr location then
          ({ status := 301, location := some (location.getD ""), body := none }, [])
        else if truthyStr o.getRedirectUrl then
          (remixRedirect (o.getRedirectUrl.getD ""), [])
        else
          (response, [])

/-! ### Menu URL resolution (resolveToFromType, src/app/lib/utils.ts) -/

/-- JavaScript template-literal interpolation of a possibly-undefined
string: undefined prints as the text "undefined". -/
def jsInterp : Option String → String
  | some s => s
  | none => "undefined"

/-- The defaultPrefixes table of resolveToFromType, verbatim from the
source. -/
def defaultPrefixes : List (String × String) :=
  [("BLOG", "blogs"),
   ("COLLECTION", "collections"),
   ("COLLECTIONS", "collections"),
   ("FRONTPAGE", "frontpage"),
   ("HTTP", ""),
   ("PAGE", "pages"),
   ("CATALOG", "collections/all"),
   ("PRODUCT", "products"),
   ("SEARCH", "search"),
   ("SHOP_POLICY", "policies")]

/-- The merged route table of resolveToFromType: custom entries shadow the
defaults, exactly like the object spread in the source. -/
def routePrefixLookup (customPrefixes : List (String × String)) (k : String) :
    Option String :=
  match customPrefixes.lookup k with
  | some v => some v
  | none => defaultPrefixes.lookup k

/-- Shallow embedding of resolveToFromType from src/app/lib/utils.ts.
Optional arguments are Option values; the falsy guard on pathname and type
checks for undefined or empty.  pathParts.pop mutates the array in the
source, so the handle is the last split segment and the blog handle of the
ARTICLE case is the last segment of the remaining list (interpolating
undefined as "undefined" when absent, as a template literal does). -/
def resolveToFromType (customPrefixes : List (String × String))
    (pathname ty : Option String) : String :=
  match pathname, ty with
  | some p, some t =>
      if p = "" || t = "" then ""
      else
        let pathParts := p.splitOn "/"
        let handle := pathParts.getLastD ""
        let rest := pathParts.dropLast
        if t = "FRONTPAGE" then "/"
        else if t = "ARTICLE" then
          let blogHandle := jsInterp rest.getLast?
          if truthyStr (routePrefixLookup customPrefixes "BLOG") then
            "/" ++ jsInterp (routePrefixLookup customPrefixes "BLOG") ++ "/" ++
              blogHandle ++ "/" ++ handle ++ "/"
          else
            "/" ++ blogHandle ++ "/" ++ handle ++ "/"
        else if t = "COLLECTIONS" then
          "/" ++ jsInterp (routePrefixLookup customPrefixes "COLLECTIONS")
        else if t = "SEARCH" then
          "/" ++ jsInterp (routePrefixLookup customPrefixes "SEARCH")
        else if t = "CATALOG" then
          "/" ++ jsInterp (routePrefixLookup customPrefixes "CATALOG")
        else if truthyStr (routePrefixLookup customPrefixes t) then
          "/" ++ jsInterp (routePrefixLookup customPrefixes t) ++ "/" ++ handle
        else "/" ++ handle
  | _, _ => ""

/-! ### Order status translation (statusMessage, src/app/lib/utils.ts) -/

/-- The translations table of statusMessage, verbatim from the source. -/
def translations : List (String × String) :=
  [("ATTEMPTED_DELIVERY", "Attempted delivery"),
   ("CANCELED", "Canceled"),
   ("CONFIRMED", "Confirmed"),
   ("DELIVERED", "Delivered"),
   ("FAILURE", "Failure"),
   ("FULFILLED", "Fulfilled"),
   ("IN_PROGRESS", "In Progress"),
   ("IN_TRANSIT", "In transit"),
   ("LABEL_PRINTED", "Label printed"),
   ("LABEL_PURCHASED", "Label purchased"),
   ("LABEL_VOIDED", "Label voided"),
   ("MARKED_AS_FULFILLED", "Marked as fulfilled"),
   ("NOT_DELIVERED", "Not delivered"),
   ("ON_HOLD", "On Hold"),
   ("OPEN", "Open"),
   ("OUT_FOR_DELIVERY", "Out for delivery"),
   ("PARTIALLY_FULFILLED", "Partially Fulfilled"),
   ("PENDING_FULFILLMENT", "Pending"),
   ("PICKED_UP", "Displayed as Picked up"),
   ("READY_FOR_PICKUP", "Ready for pickup"),
   ("RESTOCKED", "Restocked"),
   ("SCHEDULED", "Scheduled"),
   ("SUBMITTED", "Submitted"),
   ("UNFULFILLED", "Unfulfilled")]

/-- A JavaScript property-access result: undefined, a string value of the
table, or a member inherited from Object.prototype (a function, or the
prototype object for the proto accessor), kept opaque and tagged with its
name. -/
inductive JsValue where
  | undefined : JsValue
  | str : String → JsValue
  | inherited : String → JsValue
deriving DecidableEq

/-- The property names of the standard Object.prototype, which indexing a
plain object literal falls through to when the key is not an own
property. -/
def objectProtoKeys : List String :=
  ["constructor", "hasOwnProperty", "isPrototypeOf", "propertyIsEnumerable",
   "toLocaleString", "toString", "valueOf", "__proto__",
   "__defineGetter__", "__defineSetter__", "__lookupGetter__",
   "__lookupSetter__"]

/-- Shallow embedding of statusMessage from src/app/lib/utils.ts.  The
expression `translations?.[status]` indexes a plain object literal: an own
property (one of the 24 table entries) shadows everything; otherwise the
access falls through to Object.prototype, returning the inherited member
when the key names one, and undefined for every other key.  No access
throws, so the catch branch of the source that would return the raw status
is unreachable and the embedded function is total. -/
def statusMessage (status : String) : JsValue :=
  match translations.lookup status with
  | some v => JsValue.str v
  | none =>
      if status ∈ objectProtoKeys then JsValue.inherited status
      else JsValue.undefined

/-! ### New-arrival check (isNewArrival, src/app/lib/utils.ts) -/

/-- Milliseconds in one calendar day, the unit of setDate arithmetic. -/
def msPerDay : Int := 86400000

/-- Shallow embedding of isNewArrival from src/app/lib/utils.ts.  Time is
integer milliseconds since the epoch: `now` models `new Date()` and
`parseDate` models the Date constructor on the given string, with `none`
playing the role of an invalid date (NaN), for which every `>` comparison
is false.  The expression `new Date().setDate(new Date().getDate() - daysOld)`
moves the current instant back daysOld calendar days, i.e. daysOld times
86,400,000 ms. -/
def isNewArrival (parseDate : String → Option Int) (now : Int) (date : String)
    (daysOld : Int) : Bool :=
  match parseDate date with
  | some t => t > now - daysOld * msPerDay
  | none => false

/-! ### Text formatting (formatText, src/app/lib/utils.ts) -/

/-- Membership of the JavaScript regular-expression whitespace class. -/
def isJsSpace (c : Char) : Bool :=
  c.val = 9 || c.val = 10 || c.val = 11 || c.val = 12 || c.val = 13 ||
  c.val = 32 || c.val = 160 || c.val = 0x1680 ||
  (0x2000 ≤ c.val && c.val ≤ 0x200a) || c.val = 0x2028 || c.val = 0x2029 ||
  c.val = 0x202f || c.val = 0x205f || c.val = 0x3000 || c.val = 0xfeff

/-- Membership of the bracket class of the formatText pattern: any character
that is neither whitespace nor a lower-than sign. -/
def isFinalWordChar (c : Char) : Bool :=
  !isJsSpace c && c ≠ '<'

/-- The non-breaking space U+00A0 used as replacement text. -/
def nbsp : Char := Char.ofNat 160

/-- One attempted match of the formatText pattern at the current position:
a whitespace character, then a non-empty greedy run of word characters,
then only whitespace up to the end of the string.  Returns the captured
word on success. -/
def matchFinalWord : List Char → Option (List Char)
  | [] => none
  | c :: rest =>
      if isJsSpace c then
        let grp := rest.takeWhile isFinalWordChar
        if grp = [] then none
        else if (rest.dropWhile isFinalWordChar).all isJsSpace then some grp
        else none
      else none

/-- Leftmost-match replacement for the formatText pattern: scanning left to
right, the first position where the pattern matches is rewritten to a
non-breaking space followed by the captured word (the trailing whitespace
is dropped); with the pattern anchored at the end of the string there is at
most one match. -/
def nbspScan (cs : List Char) : List Char :=
  match cs with
  | [] => []
  | c :: rest =>
      match matchFinalWord (c :: rest) with
      | some grp => nbsp :: grp
      | none => c :: nbspScan rest

/-- String wrapper of nbspScan: the replace call of formatText. -/
def nbspReplace (s : String) : String :=
  String.mk (nbspScan s.data)

/-- The possible arguments of formatText: undefined, a string, or some
other React node (kept opaque). -/
inductive FormatInput where
  | undef : FormatInput
  | str : String → FormatInput
  | node : Nat → FormatInput
deriving DecidableEq

/-- Shallow embedding of formatText from src/app/lib/utils.ts.  The
typographic-base library is external and passed in as a function.  Falsy
input (undefined or the empty string) returns undefined; non-string input
is returned unchanged; a non-empty string is processed and then rewritten
by the final-word replacement. -/
def formatText (typographicBase : String → String) : FormatInput → FormatInput
  | FormatInput.undef => FormatInput.undef
  | FormatInput.node n => FormatInput.node n
  | FormatInput.str s =>
      if s = "" then FormatInput.undef
      else FormatInput.str (nbspReplace (typographicBase s))

/-! ### package.json name rewrite (setupLocalStarterTemplate) -/

/-- The literal part of the pattern the package.json rewrite searches for:
a quoted name key, colon, space, opening quote of the value. -/
def pkgNameLit : List Char := "\"name\": \"".data

/-- One attempted match of the package.json name pattern at the current
position: the literal, then a non-empty greedy run of non-quote characters,
then a closing quote.  Returns the old value and the text after the closing
quote on success. -/
def matchNameField (cs : List Char) : Option (List Char × List Char) :=
  if pkgNameLit.isPrefixOf cs then
    let after := cs.drop pkgNameLit.length
    let value := after.takeWhile (fun c => c != '"')
    if value = [] then none
    else
      match after.dropWhile (fun c => c != '"') with
      | '"' :: rest => some (value, rest)
      | _ => none
  else none

/-- Leftmost single replacement of the package.json name pattern, the
semantics of the non-global String.replace call in setupLocalStarterTemplate:
the first match is rewritten to the literal, the new name and a closing
quote, and everything else is untouched. -/
def replaceNameScan (newName : List Char) : List Char → List Char
  | [] => []
  | c :: rest =>
      match matchNameField (c :: rest) with
      | some (_, after) => pkgNameLit ++ newName ++ '"' :: after
      | none => c :: replaceNameScan newName rest

/-- String wrapper of replaceNameScan: the content transformation the
replaceFileContent call of setupLocalStarterTemplate applies to
package.json. -/
def replacePackageJsonName (content newName : String) : String :=
  String.mk (replaceNameScan newName.data content.data)

/-- The new package name chosen by setupLocalStarterTemplate: the
hyphenated storefront title, or the hyphenated project name when no
storefront is linked.  The cli-kit hyphenate helper is external and passed
in as a function. -/
def projectPackageName (hyphenate : String → String)
    (storefrontTitle : Option String) (projectName : String) : String :=
  hyphenate (storefrontTitle.getD projectName)

/-! ### Setup wizard outcome model (setupLocalStarterTemplate) -/

/-- The SetupSummary record accumulated by setupLocalStarterTemplate, with
the fields the function writes.  Error fields only record whether an error
was captured. -/
structure SetupSummary where
  language : String
  packageManager : String
  cssStrategy : Option String
  depsInstalled : Bool
  hasCreatedShortcut : Bool
  i18n : Option String
  routes : Option (List String)
  depsError : Option Unit
  i18nError : Option Unit
  routesError : Option Unit
deriving DecidableEq

/-- The choices made during one run of setupLocalStarterTemplate together
with the outcome of every fallible external step.  Prompt answers and step
results are inputs of the model; the Ok flags say whether the corresponding
awaited step resolved rather than threw. -/
structure SetupConfig where
  mockShop : Bool
  linkChoice : Bool
  language : String
  cssStrategy : Option String
  packageManager : String
  shouldInstallDeps : Bool
  installDepsOk : Bool
  wantShortcut : Bool
  shortcutResult : Bool
  optI18n : Option String
  optRoutes : Option Bool
  confirmSetup : Bool
  i18nStrategy : String
  routesList : List String
  setupI18nOk : Bool
  setupRoutesOk : Bool
  copyOk : Bool
  generateEntriesOk : Bool
  writeConfigOk : Bool
  transpileOk : Bool
  setupCssOk : Bool
  createStorefrontOk : Bool
deriving DecidableEq

/-- Whether the run links a Shopify storefront: not mock-shop mode and the
link choice taken at the first prompt. -/
def templateLinked (cfg : SetupConfig) : Bool :=
  !cfg.mockShop && cfg.linkChoice

/-- The continueWithSetup condition of setupLocalStarterTemplate: an i18n
or routes option was given, or the user confirmed the scaffolding prompt. -/
def continueWithSetup (cfg : SetupConfig) : Bool :=
  cfg.optI18n.isSome || cfg.optRoutes.isSome || cfg.confirmSetup

/-- Whether the run aborts: the steps chained with catch(abort) — storefront
creation when linked, template copy, project-entry generation, the
configuration writes, transpilation, and CSS setup when a strategy was
chosen — are fatal when they fail; the whole wizard is torn down and no
summary is rendered. -/
def setupAborted (cfg : SetupConfig) : Bool :=
  (templateLinked cfg && !cfg.createStorefrontOk) ||
  !cfg.copyOk || !cfg.generateEntriesOk || !cfg.writeConfigOk ||
  !cfg.transpileOk || (cfg.cssStrategy.isSome && !cfg.setupCssOk)

/-- Shallow embedding of the summary-building behaviour of
setupLocalStarterTemplate from the init flow source.  Returns the
SetupSummary the wizard renders at the end, or none when an abort killed
the run.  Mutations are applied in source order: the record starts with the
language, package manager and CSS strategy and false flags; the dependency
install sets depsInstalled on success and depsError on failure; the CLI
shortcut step stores the boolean result of createShortcut; when the
scaffolding phase runs, the i18n strategy and route list are stored
immediately and a failure of setupI18n or setupRoutes is captured into
i18nError or routesError. -/
def setupLocalStarterTemplate (cfg : SetupConfig) : Option SetupSummary :=
  if setupAborted cfg then none
  else
    let s0 : SetupSummary :=
      { language := cfg.language
        packageManager := cfg.packageManager
        cssStrategy := cfg.cssStrategy
        depsInstalled := false
        hasCreatedShortcut := false
        i18n := none
        routes := none
        depsError := none
        i18nError := none
        routesError := none }
    let s1 :=
      if cfg.shouldInstallDeps then
        if cfg.installDepsOk then { s0 with depsInstalled := true }
        else { s0 with depsError := some () }
      else s0
    let s2 :=
      if cfg.wantShortcut then { s1 with hasCreatedShortcut := cfg.shortcutResult }
      else s1
    let s3 :=
      if continueWithSetup cfg then
        { s2 with
          i18n := some cfg.i18nStrategy
          routes := some cfg.routesList
          i18nError := if cfg.setupI18nOk then none else some ()
          routesError := if cfg.setupRoutesOk then none else some () }
      else s2
    some s3

/-! ### Step ordering model (setupLocalStarterTemplate promise graph) -/

/-- The asynchronous steps of setupLocalStarterTemplate in the
fully-enabled linked-storefront run. -/
inductive Step where
  | createStorefront | waitForJob
  | copyTemplate | generateEntries
  | writePkgJsonName | setUserAccount | setStorefront | writeEnvFile
  | transpile | initialCommit
  | setupCss | commitCss
  | installDeps
  | createShortcut
  | setupI18n | commitI18n | setupRoutes | commitRoutes
deriving DecidableEq

/-- The direct completion dependencies the promise wiring of
setupLocalStarterTemplate imposes on each step: a step may start only
after all listed steps finished.  createStorefront then waitForJob is the
storefront chain; the background chain is copy, generate entries, the
parallel configuration writes joined by Promise.all (setStorefront also
awaits the storefront chain), transpile, the initial commit, CSS setup and
its commit; the dependency install and the shortcut creation both chain on
the background promise as it stands after the CSS commit; the scaffolding
continuation runs i18n setup, its commit, route generation and its commit
in sequence after the shortcut step. -/
def directDeps : Step → List Step
  | Step.createStorefront => []
  | Step.waitForJob => [Step.createStorefront]
  | Step.copyTemplate => []
  | Step.generateEntries => [Step.copyTemplate]
  | Step.writePkgJsonName => [Step.generateEntries]
  | Step.setUserAccount => [Step.generateEntries]
  | Step.setStorefront => [Step.generateEntries, Step.waitForJob]
  | Step.writeEnvFile => [Step.generateEntries]
  | Step.transpile =>
      [Step.writePkgJsonName, Step.setUserAccount, Step.setStorefront,
       Step.writeEnvFile]
  | Step.initialCommit => [Step.transpile]
  | Step.setupCss => [Step.initialCommit]
  | Step.commitCss => [Step.setupCss]
  | Step.installDeps => [Step.commitCss]
  | Step.createShortcut => [Step.commitCss]
  | Step.setupI18n => [Step.createShortcut]
  | Step.commitI18n => [Step.setupI18n]
  | Step.setupRoutes => [Step.commitI18n]
  | Step.commitRoutes => [Step.setupRoutes]

/-- All steps of the fully-enabled run. -/
def allSteps : List Step :=
  [Step.createStorefront, Step.waitForJob,
   Step.copyTemplate, Step.generateEntries,
   Step.writePkgJsonName, Step.setUserAccount, Step.setStorefront,
   Step.writeEnvFile,
   Step.transpile, Step.initialCommit,
   Step.setupCss, Step.commitCss,
   Step.installDeps,
   Step.createShortcut,
   Step.setupI18n, Step.commitI18n, Step.setupRoutes, Step.commitRoutes]

/-- A valid completion order of the event loop: a permutation of all steps
in which every step comes after each of its direct dependencies. -/
def schedValid (l : List Step) : Bool :=
  l.length = allSteps.length &&
  allSteps.all (fun s => l.count s = 1) &&
  allSteps.all (fun s => (directDeps s).all (fun d => l.indexOf d < l.indexOf s))

/-- A concrete mock-shop run in which every fatal step succeeds, the
dependency install succeeds, the shortcut is created, the scaffolding
prompt is confirmed, and both the i18n setup and the route generation
steps fail. -/
def cfgC3 : SetupConfig :=
  { mockShop := true
    linkChoice := false
    language := "js"
    cssStrategy := some "tailwind"
    packageManager := "npm"
    shouldInstallDeps := true
    installDepsOk := true
    wantShortcut := true
    shortcutResult := true
    optI18n := none
    optRoutes := none
    confirmSetup := true
    i18nStrategy := "subfolders"
    routesList := ["home", "cart"]
    setupI18nOk := false
    setupRoutesOk := false
    copyOk := true
    generateEntriesOk := true
    writeConfigOk := true
    transpileOk := true
    setupCssOk := true
    createStorefrontOk := true }

/-- The summary the wizard renders for cfgC3. -/
def summaryC3 : SetupSummary :=
  { language := "js"
    packageManager := "npm"
    cssStrategy := some "tailwind"
    depsInstalled := true
    hasCreatedShortcut := true
    i18n := some "subfolders"
    routes := some ["home", "cart"]
    depsError := none
    i18nError := some ()
    routesError := some () }

/-- A concrete mock-shop run in which the dependency install, the i18n
setup and the route generation all fail while every fatal step succeeds. -/
def cfgC4 : SetupConfig :=
  { mockShop := true
    linkChoice := false
    language := "ts"
    cssStrategy := none
    packageManager := "npm"
    shouldInstallDeps := true
    installDepsOk := false
    wantShortcut := false
    shortcutResult := false
    optI18n := some "subfolders"
    optRoutes := none
    confirmSetup := false
    i18nStrategy := "subfolders"
    routesList := ["home"]
    setupI18nOk := false
    setupRoutesOk := false
    copyOk := true
    generateEntriesOk := true
    writeConfigOk := true
    transpileOk := true
    setupCssOk := true
    createStorefrontOk := true }

/-- A valid completion order of the step graph in which the whole remote
storefront chain finishes before the local template copy starts. -/
def schedStorefrontFirst : List Step :=
  [Step.createStorefront, Step.waitForJob,
   Step.copyTemplate, Step.generateEntries,
   Step.writePkgJsonName, Step.setUserAccount, Step.setStorefront,
   Step.writeEnvFile,
   Step.transpile, Step.initialCommit,
   Step.setupCss, Step.commitCss,
   Step.installDeps,
   Step.createShortcut,
   Step.setupI18n, Step.commitI18n, Step.setupRoutes, Step.commitRoutes]

/-- A valid completion order of the step graph in which the local copy and
the early file writes finish before the remote storefront chain starts. -/
def schedCopyFirst : List Step :=
  [Step.copyTemplate, Step.generateEntries,
   Step.writePkgJsonName, Step.setUserAccount, Step.writeEnvFile,
   Step.createStorefront, Step.waitForJob, Step.setStorefront,
   Step.transpile, Step.initialCommit,
   Step.setupCss, Step.commitCss,
   Step.installDeps,
   Step.createShortcut,
   Step.setupI18n, Step.commitI18n, Step.setupRoutes, Step.commitRoutes]

/-! ### Helper lemmas -/

/-- Association-list lookup misses every key that is not in the key column. -/
theorem lookup_eq_none_of_not_mem_keys {α β : Type} [BEq α] [LawfulBEq α]
    (l : List (α × β)) (a : α) (h : a ∉ l.map Prod.fst) : l.lookup a = none := by
  induction l with
  | nil => rfl
  | cons p l ih =>
      have h1 : a ≠ p.1 := by
        intro hcontra
        exact h (by simp [hcontra])
      have h2 : a ∉ l.map Prod.fst := by
        intro hcontra
        exact h (by simp [hcontra])
      have hbeq : (a == p.1) = false := by
        simpa using h1
      simpa [List.lookup, hbeq] using ih h2

/-! ### Claim theorems -/

/-- Claim C9: isNewArrival is true exactly for parseable dates strictly
newer than the current time minus daysOld days, and false for invalid
dates and for all dates at or before that threshold. -/
theorem c9_isNewArrival_iff (parseDate : String → Option Int) (now : Int)
    (date : String) (daysOld : Int) :
    isNewArrival parseDate now date daysOld = true ↔
      ∃ t, parseDate date = some t ∧ now - daysOld * msPerDay < t := by
  unfold isNewArrival
  cases h : parseDate date with
  | none => simp
  | some t => simp [h, Int.lt_iff_add_one_le]

/-- Claim C10 counterexample: the status toString is not one of the 24
keys of the translations table, yet statusMessage does not return
undefined for it — plain-object indexing falls through to
Object.prototype, so the source returns the inherited toString function. -/
theorem c10_counterexample_toString_inherited :
    "toString" ∉ translations.map Prod.fst ∧
    statusMessage "toString" = JsValue.inherited "toString" ∧
    statusMessage "toString" ≠ JsValue.undefined :=
  ⟨by decide, by decide, by decide⟩

/-- Claim C10 amended: for every status string that is not one of the 24
table keys, statusMessage returns undefined when the string also names no
Object.prototype member, returns the inherited member when it does, and in
neither case echoes the raw status back as a translation; the access is
total, so the catch branch of the source stays unreachable. -/
theorem c10_amended_statusMessage_unknown (s : String)
    (h : s ∉ translations.map Prod.fst) :
    (s ∉ objectProtoKeys → statusMessage s = JsValue.undefined) ∧
    (s ∈ objectProtoKeys → statusMessage s = JsValue.inherited s) ∧
    statusMessage s ≠ JsValue.str s := by
  have hnone : translations.lookup s = none :=
    lookup_eq_none_of_not_mem_keys translations s h
  refine ⟨?_, ?_, ?_⟩
  · intro hp
    simp [statusMessage, hnone, hp]
  · intro hp
    simp [statusMessage, hnone, hp]
  · simp only [statusMessage, hnone]
    split <;> simp

/-- Witness for the amended C10 at the concrete unknown status
"SHIPPED_MAYBE", which names no Object.prototype member. -/
theorem c10_amended_statusMessage_unknown_witness :
    ("SHIPPED_MAYBE" ∉ objectProtoKeys →
      statusMessage "SHIPPED_MAYBE" = JsValue.undefined) ∧
    ("SHIPPED_MAYBE" ∈ objectProtoKeys →
      statusMessage "SHIPPED_MAYBE" = JsValue.inherited "SHIPPED_MAYBE") ∧
    statusMessage "SHIPPED_MAYBE" ≠ JsValue.str "SHIPPED_MAYBE" :=
  c10_amended_statusMessage_unknown "SHIPPED_MAYBE" (by decide)

/-- Claim C1: for a request whose pathname is not /admin (or with
noAdminRedirect set), when the Storefront API query returns, the result of
storefrontRedirect is: a 301 response whose location header is the target
of the first urlRedirects edge when that target is present and non-empty;
otherwise a redirect to the getRedirectUrl value when that yields one;
otherwise the response passed in the options, defaulting to the 404
Not Found response. -/
theorem c1_storefrontRedirect_branches (o : StorefrontRedirectOptions)
    (conn : Option UrlRedirectConnection)
    (hAdmin : o.pathname ≠ "/admin" ∨ o.noAdminRedirect = true)
    (hq : o.queryRedirects ("path:" ++ (o.pathname ++ o.search)) = Except.ok conn) :
    (∀ loc, firstRedirectTarget conn = some loc → loc ≠ "" →
      (storefrontRedirect o).1 =
        { status := 301, location := some loc, body := none }) ∧
    (truthyStr (firstRedirectTarget conn) = false →
      ∀ u, o.getRedirectUrl = some u → u ≠ "" →
        (storefrontRedirect o).1 = remixRedirect u) ∧
    (truthyStr (firstRedirectTarget conn) = false →
      truthyStr o.getRedirectUrl = false →
        (storefrontRedirect o).1 = o.response.getD notFoundResponse) := by
  have hguard : (o.pathname = "/admin" && !o.noAdminRedirect) = false := by
    rcases hAdmin with h | h
    · simp [h]
    · simp [h]
  refine ⟨?_, ?_, ?_⟩
  · intro loc hloc hne
    simp [storefrontRedirect, hguard, hq, hloc, truthyStr, hne]
  · intro hft u hu hne
    have htu : truthyStr (some u) = true := by simp [truthyStr, hne]
    simp [storefrontRedirect, hguard, hq, hft, hu, htu, remixRedirect]
  · intro hft hfu
    simp [storefrontRedirect, hguard, hq, hft, hfu]

/-- Witness for C1: a request for /old-path against a storefront whose
redirects query returns target /new-path yields the 301 response. -/
theorem c1_storefrontRedirect_branches_witness :
    (storefrontRedirect
      { shopifyDomain := "https://x.myshopify.com"
        pathname := "/old-path"
        search := ""
        noAdminRedirect := false
        response := none
        queryRedirects := fun _ =>
          Except.ok (some { edges := some [{ node := some { target := some "/new-path" } }] })
        getRedirectUrl := none }).1 =
      { status := 301, location := some "/new-path", body := none } :=
  (c1_storefrontRedirect_branches
      { shopifyDomain := "https://x.myshopify.com"
        pathname := "/old-path"
        search := ""
        noAdminRedirect := false
        response := none
        queryRedirects := fun _ =>
          Except.ok (some { edges := some [{ node := some { target := some "/new-path" } }] })
        getRedirectUrl := none }
      (some { edges := some [{ node := some { target := some "/new-path" } }] })
      (Or.inl (by decide)) rfl).1 "/new-path" rfl (by decide)

/-- Claim C2: when the Storefront API query throws, storefrontRedirect
logs the failure and still returns normally with the fallback response
passed in the options (defaulting to the 404 Not Found response); the
error is never re-raised. -/
theorem c2_storefrontRedirect_queryError (o : StorefrontRedirectOptions)
    (e : String)
    (hAdmin : o.pathname ≠ "/admin" ∨ o.noAdminRedirect = true)
    (hq : o.queryRedirects ("path:" ++ (o.pathname ++ o.search)) = Except.error e) :
    storefrontRedirect o =
      (o.response.getD notFoundResponse,
       ["Failed to fetch redirects from Storefront API for route " ++
         (o.pathname ++ o.search)]) := by
  have hguard : (o.pathname = "/admin" && !o.noAdminRedirect) = false := by
    rcases hAdmin with h | h
    · simp [h]
    · simp [h]
  simp [storefrontRedirect, hguard, hq]

/-- Witness for C2: a failing query for /broken falls back to the default
404 response and logs the route. -/
theorem c2_storefrontRedirect_queryError_witness :
    storefrontRedirect
      { shopifyDomain := "https://x.myshopify.com"
        pathname := "/broken"
        search := "?a=1"
        noAdminRedirect := false
        response := none
        queryRedirects := fun _ => Except.error "network down"
        getRedirectUrl := some "/fallback" } =
      (notFoundResponse,
       ["Failed to fetch redirects from Storefront API for route /broken?a=1"]) :=
  c2_storefrontRedirect_queryError
    { shopifyDomain := "https://x.myshopify.com"
      pathname := "/broken"
      search := "?a=1"
      noAdminRedirect := false
      response := none
      queryRedirects := fun _ => Except.error "network down"
      getRedirectUrl := some "/fallback" }
    "network down" (Or.inl (by decide)) rfl

/-- Claim C5: with no custom route entries, for every non-empty pathname
whose final split segment is the handle, resolveToFromType maps each known
resource type to its default path: PRODUCT to /products/handle, FRONTPAGE
to /, COLLECTIONS to /collections, SEARCH to /search, CATALOG to
/collections/all, ARTICLE (for a pathname with a blog segment before the
handle) to /blogs/blogSegment/handle/, and BLOG, PAGE, COLLECTION and
SHOP_POLICY to their default segment followed by the handle. -/
theorem c5_resolveToFromType_defaults (p : String) (hp : p ≠ "") :
    resolveToFromType [] (some p) (some "PRODUCT") =
      "/products/" ++ (p.splitOn "/").getLastD "" ∧
    resolveToFromType [] (some p) (some "FRONTPAGE") = "/" ∧
    resolveToFromType [] (some p) (some "COLLECTIONS") = "/collections" ∧
    resolveToFromType [] (some p) (some "SEARCH") = "/search" ∧
    resolveToFromType [] (some p) (some "CATALOG") = "/collections/all" ∧
    (2 ≤ (p.splitOn "/").length →
      resolveToFromType [] (some p) (some "ARTICLE") =
        "/blogs/" ++ (p.splitOn "/").dropLast.getLastD "" ++ "/" ++
          (p.splitOn "/").getLastD "" ++ "/") ∧
    resolveToFromType [] (some p) (some "BLOG") =
      "/blogs/" ++ (p.splitOn "/").getLastD "" ∧
    resolveToFromType [] (some p) (some "PAGE") =
      "/pages/" ++ (p.splitOn "/").getLastD "" ∧
    resolveToFromType [] (some p) (some "COLLECTION") =
      "/collections/" ++ (p.splitOn "/").getLastD "" ∧
    resolveToFromType [] (some p) (some "SHOP_POLICY") =
      "/policies/" ++ (p.splitOn "/").getLastD "" := by
  refine ⟨?_, ?_, ?_, ?_, ?_, ?_, ?_, ?_, ?_, ?_⟩
  · simp [resolveToFromType, hp, routePrefixLookup, defaultPrefixes, truthyStr, jsInterp] <;> rfl
  · simp [resolveToFromType, hp]
  · simp [resolveToFromType, hp, routePrefixLookup, defaultPrefixes, truthyStr, jsInterp] <;> rfl
  · simp [resolveToFromType, hp, routePrefixLookup, defaultPrefixes, truthyStr, jsInterp] <;> rfl
  · simp [resolveToFromType, hp, routePrefixLookup, defaultPrefixes, truthyStr, jsInterp] <;> rfl
  · intro hlen
    have hne : (p.splitOn "/").dropLast ≠ [] := by
      intro h0
      have hlength := congrArg List.length h0
      simp [List.length_dropLast] at hlength
      omega
    obtain ⟨x, hx⟩ : ∃ x, (p.splitOn "/").dropLast.getLast? = some x := by
      have := List.getLast?_isSome.mpr hne
      exact Option.isSome_iff_exists.mp this
    have hxD : (p.splitOn "/").dropLast.getLastD "" = x := by
      rw [List.getLastD_eq_getLast?, hx]
      rfl
    simp [resolveToFromType, hp, routePrefixLookup, defaultPrefixes, truthyStr,
      jsInterp, hx, hxD] <;> rfl
  · simp [resolveToFromType, hp, routePrefixLookup, defaultPrefixes, truthyStr, jsInterp] <;> rfl
  · simp [resolveToFromType, hp, routePrefixLookup, defaultPrefixes, truthyStr, jsInterp] <;> rfl
  · simp [resolveToFromType, hp, routePrefixLookup, defaultPrefixes, truthyStr, jsInterp] <;> rfl
  · simp [resolveToFromType, hp, routePrefixLookup, defaultPrefixes, truthyStr, jsInterp] <;> rfl

/-- Witness for C5 at the concrete pathname /products/shirt (and, for the
ARTICLE conjunct, blog segment journal with handle my-post). -/
theorem c5_resolveToFromType_defaults_witness :
    resolveToFromType [] (some "/blogs/journal/my-post") (some "PRODUCT") =
      "/products/" ++ ("/blogs/journal/my-post".splitOn "/").getLastD "" :=
  (c5_resolveToFromType_defaults "/blogs/journal/my-post" (by decide)).1

/-- Claim C3 counterexample: in the concrete run cfgC3 both the i18n setup
and the route generation steps fail (their errors are captured in
i18nError and routesError), yet the rendered summary still has its i18n
and routes fields populated — so those fields are not populated only when
their steps completed successfully. -/
theorem c3_counterexample_i18n_routes_set_despite_failure :
    setupLocalStarterTemplate cfgC3 = some summaryC3 ∧
    summaryC3.i18nError = some () ∧ summaryC3.i18n = some "subfolders" ∧
    summaryC3.routesError = some () ∧ summaryC3.routes = some ["home", "cart"] :=
  ⟨rfl, rfl, rfl, rfl, rfl⟩

/-- Claim C3 amended: in any completed run, language, packageManager and
cssStrategy mirror the choices made; depsInstalled is true exactly when
the install step ran and succeeded; hasCreatedShortcut is true exactly
when the shortcut step ran and reported success; and the i18n and routes
fields are populated exactly when the scaffolding phase ran (with the
chosen strategy and route list), regardless of whether the i18n setup and
route generation steps themselves succeeded. -/
theorem c3_amended_summary_fields (cfg : SetupConfig) (s : SetupSummary)
    (h : setupLocalStarterTemplate cfg = some s) :
    s.language = cfg.language ∧
    s.packageManager = cfg.packageManager ∧
    s.cssStrategy = cfg.cssStrategy ∧
    (s.depsInstalled = true ↔ cfg.shouldInstallDeps = true ∧ cfg.installDepsOk = true) ∧
    (s.hasCreatedShortcut = true ↔ cfg.wantShortcut = true ∧ cfg.shortcutResult = true) ∧
    (s.i18n.isSome = true ↔ continueWithSetup cfg = true) ∧
    (s.routes.isSome = true ↔ continueWithSetup cfg = true) ∧
    (continueWithSetup cfg = true →
      s.i18n = some cfg.i18nStrategy ∧ s.routes = some cfg.routesList) := by
  unfold setupLocalStarterTemplate at h
  cases hA : setupAborted cfg with
  | true => rw [hA] at h; simp at h
  | false =>
      rw [hA] at h
      simp only [Bool.false_eq_true, if_false, Option.some_inj] at h
      subst h
      by_cases h1 : cfg.shouldInstallDeps = true <;>
        by_cases h2 : cfg.installDepsOk = true <;>
        by_cases h3 : cfg.wantShortcut = true <;>
        by_cases h4 : continueWithSetup cfg = true <;>
        simp [h1, h2, h3, h4]

/-- Witness for the amended C3 at the concrete run cfgC3. -/
theorem c3_amended_summary_fields_witness :
    summaryC3.language = cfgC3.language ∧
    summaryC3.packageManager = cfgC3.packageManager ∧
    summaryC3.cssStrategy = cfgC3.cssStrategy ∧
    (summaryC3.depsInstalled = true ↔
      cfgC3.shouldInstallDeps = true ∧ cfgC3.installDepsOk = true) ∧
    (summaryC3.hasCreatedShortcut = true ↔
      cfgC3.wantShortcut = true ∧ cfgC3.shortcutResult = true) ∧
    (summaryC3.i18n.isSome = true ↔ continueWithSetup cfgC3 = true) ∧
    (summaryC3.routes.isSome = true ↔ continueWithSetup cfgC3 = true) ∧
    (continueWithSetup cfgC3 = true →
      summaryC3.i18n = some cfgC3.i18nStrategy ∧
        summaryC3.routes = some cfgC3.routesList) :=
  c3_amended_summary_fields cfgC3 summaryC3 (by rfl)

/-- Claim C4: failures of the dependency install, of the i18n setup and of
the route generation never abort the run (they are not among the fatal
steps), the wizard still completes and renders a summary, and each such
failure is recorded in the corresponding error field of the summary. -/
theorem c4_perStep_failures_recorded (cfg : SetupConfig)
    (h : setupAborted cfg = false) :
    (∀ b1 b2 b3,
      setupAborted
        { cfg with installDepsOk := b1, setupI18nOk := b2, setupRoutesOk := b3 } =
        false) ∧
    ∃ s, setupLocalStarterTemplate cfg = some s ∧
      (cfg.shouldInstallDeps = true → cfg.installDepsOk = false →
        s.depsInstalled = false ∧ s.depsError = some ()) ∧
      (continueWithSetup cfg = true → cfg.setupI18nOk = false →
        s.i18nError = some ()) ∧
      (continueWithSetup cfg = true → cfg.setupRoutesOk = false →
        s.routesError = some ()) := by
  constructor
  · intro b1 b2 b3
    exact h
  · unfold setupLocalStarterTemplate
    rw [h]
    simp only [Bool.false_eq_true, if_false]
    refine ⟨_, rfl, ?_, ?_, ?_⟩
    · intro hd1 hd2
      by_cases h3 : cfg.wantShortcut = true <;>
        by_cases h4 : continueWithSetup cfg = true <;>
        simp [hd1, hd2, h3, h4]
    · intro h4 hi
      by_cases h1 : cfg.shouldInstallDeps = true <;>
        by_cases h2 : cfg.installDepsOk = true <;>
        by_cases h3 : cfg.wantShortcut = true <;>
        simp [h1, h2, h3, h4, hi]
    · intro h4 hr
      by_cases h1 : cfg.shouldInstallDeps = true <;>
        by_cases h2 : cfg.installDepsOk = true <;>
        by_cases h3 : cfg.wantShortcut = true <;>
        simp [h1, h2, h3, h4, hr]

/-- Witness for C4 at the concrete run cfgC4, in which the dependency
install, the i18n setup and the route generation all fail. -/
theorem c4_perStep_failures_recorded_witness :
    (∀ b1 b2 b3,
      setupAborted
        { cfgC4 with installDepsOk := b1, setupI18nOk := b2, setupRoutesOk := b3 } =
        false) ∧
    ∃ s, setupLocalStarterTemplate cfgC4 = some s ∧
      (cfgC4.shouldInstallDeps = true → cfgC4.installDepsOk = false →
        s.depsInstalled = false ∧ s.depsError = some ()) ∧
      (continueWithSetup cfgC4 = true → cfgC4.setupI18nOk = false →
        s.i18nError = some ()) ∧
      (continueWithSetup cfgC4 = true → cfgC4.setupRoutesOk = false →
        s.routesError = some ()) :=
  c4_perStep_failures_recorded cfgC4 (by decide)

/-- In a valid schedule every step comes strictly after each of its direct
dependencies. -/
theorem schedValid_indexOf_lt {l : List Step} (hv : schedValid l = true)
    {s d : Step} (hs : s ∈ allSteps) (hd : d ∈ directDeps s) :
    l.indexOf d < l.indexOf s := by
  unfold schedValid at hv
  rw [Bool.and_eq_true, Bool.and_eq_true] at hv
  have h3 := hv.2
  rw [List.all_eq_true] at h3
  have h4 := h3 s hs
  rw [List.all_eq_true] at h4
  have h5 := h4 d hd
  simpa using h5

/-- Claim C6: in every valid completion order of the promise graph of
setupLocalStarterTemplate, project-entry generation comes after the
template copy, transpilation comes after the copy, the entry generation
and all four configuration writes, the initial git commit comes after
transpilation, and every step other than the remote storefront chain
comes after the copy; and there are valid orders with the storefront
chain entirely before the copy and entirely after the early file writes,
so only the storefront creation is concurrent with the local copy. -/
theorem c6_step_ordering (l : List Step) (hv : schedValid l = true) :
    (l.indexOf Step.copyTemplate < l.indexOf Step.generateEntries ∧
     l.indexOf Step.copyTemplate < l.indexOf Step.transpile ∧
     l.indexOf Step.generateEntries < l.indexOf Step.transpile ∧
     l.indexOf Step.writePkgJsonName < l.indexOf Step.transpile ∧
     l.indexOf Step.setUserAccount < l.indexOf Step.transpile ∧
     l.indexOf Step.setStorefront < l.indexOf Step.transpile ∧
     l.indexOf Step.writeEnvFile < l.indexOf Step.transpile ∧
     l.indexOf Step.transpile < l.indexOf Step.initialCommit) ∧
    (∀ s, s ∈ allSteps → s ≠ Step.createStorefront → s ≠ Step.waitForJob →
      s ≠ Step.copyTemplate → l.indexOf Step.copyTemplate < l.indexOf s) ∧
    (schedValid schedStorefrontFirst = true ∧
      schedStorefrontFirst.indexOf Step.createStorefront <
        schedStorefrontFirst.indexOf Step.copyTemplate ∧
      schedStorefrontFirst.indexOf Step.waitForJob <
        schedStorefrontFirst.indexOf Step.copyTemplate) ∧
    (schedValid schedCopyFirst = true ∧
      schedCopyFirst.indexOf Step.copyTemplate <
        schedCopyFirst.indexOf Step.createStorefront) := by
  have dep : ∀ s d : Step, s ∈ allSteps → d ∈ directDeps s →
      l.indexOf d < l.indexOf s := fun s d hs hd => schedValid_indexOf_lt hv hs hd
  have hcg : l.indexOf Step.copyTemplate < l.indexOf Step.generateEntries :=
    dep _ _ (by decide) (by decide)
  have hgw1 : l.indexOf Step.generateEntries < l.indexOf Step.writePkgJsonName :=
    dep _ _ (by decide) (by decide)
  have hgw2 : l.indexOf Step.generateEntries < l.indexOf Step.setUserAccount :=
    dep _ _ (by decide) (by decide)
  have hgw3 : l.indexOf Step.generateEntries < l.indexOf Step.setStorefront :=
    dep _ _ (by decide) (by decide)
  have hgw4 : l.indexOf Step.generateEntries < l.indexOf Step.writeEnvFile :=
    dep _ _ (by decide) (by decide)
  have hw1t : l.indexOf Step.writePkgJsonName < l.indexOf Step.transpile :=
    dep _ _ (by decide) (by decide)
  have hw2t : l.indexOf Step.setUserAccount < l.indexOf Step.transpile :=
    dep _ _ (by decide) (by decide)
  have hw3t : l.indexOf Step.setStorefront < l.indexOf Step.transpile :=
    dep _ _ (by decide) (by decide)
  have hw4t : l.indexOf Step.writeEnvFile < l.indexOf Step.transpile :=
    dep _ _ (by decide) (by decide)
  have htic : l.indexOf Step.transpile < l.indexOf Step.initialCommit :=
    dep _ _ (by decide) (by decide)
  have hiccss : l.indexOf Step.initialCommit < l.indexOf Step.setupCss :=
    dep _ _ (by decide) (by decide)
  have hcssc : l.indexOf Step.setupCss < l.indexOf Step.commitCss :=
    dep _ _ (by decide) (by decide)
  have hcid : l.indexOf Step.commitCss < l.indexOf Step.installDeps :=
    dep _ _ (by decide) (by decide)
  have hcsh : l.indexOf Step.commitCss < l.indexOf Step.createShortcut :=
    dep _ _ (by decide) (by decide)
  have hshi : l.indexOf Step.createShortcut < l.indexOf Step.setupI18n :=
    dep _ _ (by decide) (by decide)
  have hici : l.indexOf Step.setupI18n < l.indexOf Step.commitI18n :=
    dep _ _ (by decide) (by decide)
  have hcisr : l.indexOf Step.commitI18n < l.indexOf Step.setupRoutes :=
    dep _ _ (by decide) (by decide)
  have hsrcr : l.indexOf Step.setupRoutes < l.indexOf Step.commitRoutes :=
    dep _ _ (by decide) (by decide)
  refine ⟨⟨hcg, by omega, by omega, hw1t, hw2t, hw3t, hw4t, htic⟩, ?_, ?_, ?_⟩
  · intro s hs hn1 hn2 hn3
    cases s <;>
      first
        | exact absurd rfl hn1
        | exact absurd rfl hn2
        | exact absurd rfl hn3
        | omega
  · exact ⟨by decide, by decide, by decide⟩
  · exact ⟨by decide, by decide⟩

/-- Witness for C6 at the concrete valid schedule schedCopyFirst. -/
theorem c6_step_ordering_witness :
    schedValid schedCopyFirst = true ∧
    schedCopyFirst.indexOf Step.copyTemplate <
      schedCopyFirst.indexOf Step.generateEntries :=
  ⟨by decide, (c6_step_ordering schedCopyFirst (by decide)).1.1⟩

/-- takeWhile passes over a block that satisfies the predicate. -/
theorem takeWhile_append_of_all {α : Type} (p : α → Bool) (l r : List α)
    (hl : ∀ c ∈ l, p c = true) :
    (l ++ r).takeWhile p = l ++ r.takeWhile p := by
  induction l with
  | nil => simp
  | cons a l2 ih =>
      have ha : p a = true := hl a (by simp)
      simp only [List.cons_append, List.takeWhile_cons_of_pos ha]
      rw [ih (fun c hc => hl c (by simp [hc]))]

/-- dropWhile passes over a block that satisfies the predicate. -/
theorem dropWhile_append_of_all {α : Type} (p : α → Bool) (l r : List α)
    (hl : ∀ c ∈ l, p c = true) :
    (l ++ r).dropWhile p = r.dropWhile p := by
  induction l with
  | nil => simp
  | cons a l2 ih =>
      have ha : p a = true := hl a (by simp)
      simp only [List.cons_append, List.dropWhile_cons_of_pos ha]
      exact ih (fun c hc => hl c (by simp [hc]))

/-- dropWhile can never pass over an element that fails the predicate, so
everything from that element on survives as a suffix. -/
theorem dropWhile_append_cons_suffix {α : Type} (p : α → Bool) (l : List α)
    (a : α) (r : List α) (ha : p a = false) :
    ∃ l2, (l ++ a :: r).dropWhile p = l2 ++ a :: r := by
  have ha2 : ¬ p a = true := by simp [ha]
  induction l with
  | nil =>
      exact ⟨[], by simp [List.dropWhile_cons_of_neg ha2]⟩
  | cons c l2 ih =>
      by_cases hc : p c = true
      · obtain ⟨l3, hl3⟩ := ih
        exact ⟨l3, by simpa [List.cons_append, List.dropWhile_cons_of_pos hc] using hl3⟩
      · have hc2 : ¬ p c = true := hc
        exact ⟨c :: l2,
          by simp [List.cons_append, List.dropWhile_cons_of_neg hc2]⟩

/-- Whitespace characters are not word characters. -/
theorem isFinalWordChar_space_false {c : Char} (h : isJsSpace c = true) :
    isFinalWordChar c = false := by
  simp [isFinalWordChar, h]

/-- Word characters are not whitespace. -/
theorem isJsSpace_false_of_word {c : Char} (h : isFinalWordChar c = true) :
    isJsSpace c = false := by
  by_cases hs : isJsSpace c = true
  · rw [isFinalWordChar, hs] at h
    simp at h
  · exact Bool.eq_false_iff.mpr hs

/-- At a whitespace character directly followed by the final word of the
string, the formatText pattern matches and captures exactly that word. -/
theorem matchFinalWord_boundary (sp : Char) (w t : List Char)
    (hsp : isJsSpace sp = true) (hw0 : w ≠ [])
    (hw : ∀ x ∈ w, isFinalWordChar x = true)
    (ht : ∀ x ∈ t, isJsSpace x = true) :
    matchFinalWord (sp :: (w ++ t)) = some w := by
  have htw : (w ++ t).takeWhile isFinalWordChar = w := by
    rw [takeWhile_append_of_all _ w t hw]
    cases t with
    | nil => simp
    | cons c t2 =>
        have hc : ¬ isFinalWordChar c = true := by
          simp [isFinalWordChar_space_false (ht c (by simp))]
        simp [List.takeWhile_cons_of_neg hc]
  have hdw : (w ++ t).dropWhile isFinalWordChar = t := by
    rw [dropWhile_append_of_all _ w t hw]
    cases t with
    | nil => simp
    | cons c t2 =>
        have hc : ¬ isFinalWordChar c = true := by
          simp [isFinalWordChar_space_false (ht c (by simp))]
        simp [List.dropWhile_cons_of_neg hc]
  have hta : t.all isJsSpace = true := List.all_eq_true.mpr ht
  simp [matchFinalWord, hsp, htw, hdw, hw0, hta]

/-- Before the last whitespace run of the string the formatText pattern
cannot match: the rest of the string still contains the final word, which
is not whitespace. -/
theorem matchFinalWord_middle (c : Char) (l : List Char) (sp : Char)
    (w t : List Char) (hsp : isJsSpace sp = true) (hw0 : w ≠ [])
    (hw : ∀ x ∈ w, isFinalWordChar x = true) :
    matchFinalWord (c :: (l ++ sp :: (w ++ t))) = none := by
  by_cases hc : isJsSpace c = true
  · obtain ⟨l2, hl2⟩ := dropWhile_append_cons_suffix isFinalWordChar l sp (w ++ t)
      (isFinalWordChar_space_false hsp)
    obtain ⟨w0, w2, rfl⟩ : ∃ w0 w2, w = w0 :: w2 := by
      cases w with
      | nil => exact absurd rfl hw0
      | cons w0 w2 => exact ⟨w0, w2, rfl⟩
    have hw0s : isJsSpace w0 = false := isJsSpace_false_of_word (hw w0 (by simp))
    have hall :
        ((l ++ sp :: (w0 :: w2 ++ t)).dropWhile isFinalWordChar).all isJsSpace =
          false := by
      rw [hl2]
      simp [List.all_append, hw0s]
    simp only [List.cons_append] at hall ⊢
    simp only [matchFinalWord, hc, eq_self_iff_true, if_true, hall,
      Bool.false_eq_true, if_false, ite_self]
  · simp [matchFinalWord, Bool.eq_false_iff.mpr hc]

/-- One-step unfolding of nbspScan on a non-empty list. -/
theorem nbspScan_cons (c : Char) (rest : List Char) :
    nbspScan (c :: rest) = match matchFinalWord (c :: rest) with
      | some grp => nbsp :: grp
      | none => c :: nbspScan rest := rfl

/-- nbspScan on a string that decomposes as an arbitrary head, one
whitespace character, a non-empty final word and trailing whitespace
replaces that whitespace character with the non-breaking space, keeps the
head and the word, and drops the trailing whitespace. -/
theorem nbspScan_replaces_final_word (p : List Char) (sp : Char)
    (w t : List Char) (hsp : isJsSpace sp = true) (hw0 : w ≠ [])
    (hw : ∀ x ∈ w, isFinalWordChar x = true)
    (ht : ∀ x ∈ t, isJsSpace x = true) :
    nbspScan (p ++ sp :: (w ++ t)) = p ++ nbsp :: w := by
  induction p with
  | nil =>
      simp only [List.nil_append]
      rw [nbspScan_cons, matchFinalWord_boundary sp w t hsp hw0 hw ht]
  | cons c p2 ih =>
      have hnone := matchFinalWord_middle c p2 sp w t hsp hw0 hw
      simp only [List.cons_append]
      rw [nbspScan_cons, hnone, ih]

/-- Claim C8: for every non-empty input string whose typographically
processed form ends in a whitespace character, a final word and optional
trailing whitespace, formatText returns the processed string with that
whitespace replaced by the non-breaking space U+00A0; the empty string and
undefined return undefined, and non-string input is returned unchanged. -/
theorem c8_formatText_nbsp (typographicBase : String → String) (s : String)
    (p : List Char) (sp : Char) (w t : List Char) (hs : s ≠ "")
    (hdec : (typographicBase s).data = p ++ sp :: (w ++ t))
    (hsp : isJsSpace sp = true) (hw0 : w ≠ [])
    (hw : ∀ x ∈ w, isFinalWordChar x = true)
    (ht : ∀ x ∈ t, isJsSpace x = true) :
    formatText typographicBase (FormatInput.str s) =
      FormatInput.str (String.mk (p ++ nbsp :: w)) ∧
    formatText typographicBase (FormatInput.str "") = FormatInput.undef ∧
    formatText typographicBase FormatInput.undef = FormatInput.undef ∧
    (∀ n, formatText typographicBase (FormatInput.node n) = FormatInput.node n) := by
  refine ⟨?_, by simp [formatText], by simp [formatText], fun n => by simp [formatText]⟩
  simp only [formatText, hs, if_false, nbspReplace]
  rw [hdec, nbspScan_replaces_final_word p sp w t hsp hw0 hw ht]

/-- Witness for C8: formatting the concrete string "hello brave world"
through an identity typographic processor turns the last space into the
non-breaking space. -/
theorem c8_formatText_nbsp_witness :
    formatText id (FormatInput.str "hello brave world") =
      FormatInput.str (String.mk ("hello brave".data ++ nbsp :: "world".data)) :=
  (c8_formatText_nbsp id "hello brave world" "hello brave".data ' ' "world".data []
    (by decide) (by decide) (by decide) (by decide) (by decide) (by decide)).1

/-- Where the name literal is not a leading substring, the package.json
name pattern cannot match. -/
theorem matchNameField_no_lit (cs : List Char)
    (h : pkgNameLit.isPrefixOf cs = false) : matchNameField cs = none := by
  simp [matchNameField, h]

/-- One-step unfolding of replaceNameScan on a non-empty list. -/
theorem replaceNameScan_cons (newName : List Char) (c : Char) (rest : List Char) :
    replaceNameScan newName (c :: rest) = match matchNameField (c :: rest) with
      | some (_, after) => pkgNameLit ++ newName ++ '"' :: after
      | none => c :: replaceNameScan newName rest := rfl

/-- At the position of the name literal followed by a non-empty quote-free
value and its closing quote, the package.json name pattern matches and
captures that value and the remainder after the quote. -/
theorem matchNameField_boundary (old suf : List Char) (hold0 : old ≠ [])
    (hold : ∀ c ∈ old, c ≠ '"') :
    matchNameField (pkgNameLit ++ (old ++ '"' :: suf)) = some (old, suf) := by
  have hpref : pkgNameLit.isPrefixOf (pkgNameLit ++ (old ++ '"' :: suf)) = true := by
    rw [List.isPrefixOf_iff_prefix]
    exact List.prefix_append _ _
  have hdrop : (pkgNameLit ++ (old ++ '"' :: suf)).drop pkgNameLit.length =
      old ++ '"' :: suf := List.drop_left _ _
  have hq : ∀ c ∈ old, (c != '"') = true := fun c hc => by simpa using hold c hc
  have htake : (old ++ '"' :: suf).takeWhile (fun c => c != '"') = old := by
    rw [takeWhile_append_of_all _ old _ hq]
    have hqq : ¬ (('"' : Char) != '"') = true := by simp
    simp [List.takeWhile_cons_of_neg hqq]
  have hdw : (old ++ '"' :: suf).dropWhile (fun c => c != '"') = '"' :: suf := by
    rw [dropWhile_append_of_all _ old _ hq]
    have hqq : ¬ (('"' : Char) != '"') = true := by simp
    simp [List.dropWhile_cons_of_neg hqq]
  simp [matchNameField, hpref, hdrop, htake, hdw, hold0]

/-- replaceNameScan on content that decomposes as a head with no earlier
occurrence of the pattern, the name literal, a non-empty quote-free value
and the rest rewrites exactly the value and keeps everything else. -/
theorem replaceNameScan_replaces_value (newName pre old suf : List Char)
    (hold0 : old ≠ []) (hold : ∀ c ∈ old, c ≠ '"')
    (hpre : ∀ i, i < pre.length →
      pkgNameLit.isPrefixOf ((pre ++ (pkgNameLit ++ (old ++ '"' :: suf))).drop i) =
        false) :
    replaceNameScan newName (pre ++ (pkgNameLit ++ (old ++ '"' :: suf))) =
      pre ++ (pkgNameLit ++ (newName ++ '"' :: suf)) := by
  induction pre with
  | nil =>
      simp only [List.nil_append]
      have hb := matchNameField_boundary old suf hold0 hold
      cases hl : pkgNameLit ++ (old ++ '"' :: suf) with
      | nil =>
          rw [hl] at hb
          rw [matchNameField_no_lit [] (by decide)] at hb
          cases hb
      | cons c rest =>
          rw [hl] at hb
          rw [replaceNameScan_cons, hb]
          simp
  | cons c pre2 ih =>
      have h0 := hpre 0 (by simp)
      simp only [List.drop_zero, List.cons_append] at h0
      have hnone := matchNameField_no_lit _ h0
      have hpre2 : ∀ i, i < pre2.length →
          pkgNameLit.isPrefixOf
            ((pre2 ++ (pkgNameLit ++ (old ++ '"' :: suf))).drop i) = false := by
        intro i hi
        have := hpre (i + 1) (by simpa using Nat.succ_lt_succ hi)
        simpa [List.drop_succ_cons] using this
      simp only [List.cons_append]
      rw [replaceNameScan_cons, hnone, ih hpre2]

/-- Claim C7: rewriting package.json replaces exactly the value of the
first name field — the new value being the hyphenated storefront title, or
the hyphenated project name when no storefront is linked — and leaves every
other character of the file content unchanged. -/
theorem c7_packageJson_only_name_changes (hyphenate : String → String)
    (storefrontTitle : Option String) (projectName : String)
    (pre old suf : List Char) (hold0 : old ≠ [])
    (hold : ∀ c ∈ old, c ≠ '"')
    (hpre : ∀ i, i < pre.length →
      pkgNameLit.isPrefixOf ((pre ++ (pkgNameLit ++ (old ++ '"' :: suf))).drop i) =
        false) :
    replacePackageJsonName (String.mk (pre ++ (pkgNameLit ++ (old ++ '"' :: suf))))
        (projectPackageName hyphenate storefrontTitle projectName) =
      String.mk (pre ++ (pkgNameLit ++
        ((projectPackageName hyphenate storefrontTitle projectName).data ++
          '"' :: suf))) := by
  unfold replacePackageJsonName
  exact congrArg String.mk
    (replaceNameScan_replaces_value
      (projectPackageName hyphenate storefrontTitle projectName).data
      pre old suf hold0 hold hpre)

/-- Witness for C7: rewriting a small concrete content with value
demo-store to the hyphenated linked-storefront title my-shop. -/
theorem c7_packageJson_only_name_changes_witness :
    replacePackageJsonName
        (String.mk ("ab ".data ++ (pkgNameLit ++ ("demo-store".data ++ '"' :: " cd".data))))
        (projectPackageName id (some "my-shop") "proj") =
      String.mk ("ab ".data ++ (pkgNameLit ++
        ((projectPackageName id (some "my-shop") "proj").data ++
          '"' :: " cd".data))) :=
  c7_packageJson_only_name_changes id (some "my-shop") "proj"
    "ab ".data "demo-store".data " cd".data
    (by decide) (by decide) (by decide)

end Hydrogen
